import Mathlib

/-!
Verification of the Grid Engine autoscaler
(`workflows/pipe-common/scripts/autoscale_sge.py`).

Shallow embedding conventions:
* Python integers are modelled as `Int`; timestamps (datetime values) are
  modelled as `Int` (an instant on a linear time line, e.g. epoch seconds);
  timedelta values are `Int` offsets.
* Python `None` becomes `Option.none`; the Python truthiness of optional
  strings (`None` and the empty string are falsy) is `pyOr` below.
* Python 3 semantics are used for the division operator on integers
  (true division); where the code divides integers the exact rational or
  exact ceiling value is used, which coincides with the float value for all
  magnitudes that occur here.
* The Python subclass tags `IntegralDemand` / `FractionalDemand` of
  `ComputeResource` become the `kind` field of `Demand`; `ResourceSupply`
  values keep the plain `ComputeResource` carrier.
* Side effects that do not touch the data a claim speaks about (logging,
  subprocess invocations, Grid Engine mutations) are dropped; fallible
  external calls become explicit `Except` / `Option` inputs.
-/

/-- Python `x or y` for optional strings: `None` and `''` are falsy, so the
result is `b` unless `a` is a non-empty string (used for the `owner`
field combination `self.owner or other.owner`). -/
def pyOr (a b : Option String) : Option String :=
  match a with
  | none => b
  | some s => if s = "" then b else some s

/-- `ComputeResource` (autoscale_sge.py lines 717-779): a cpu/gpu/mem triple
with an optional owner tag.  Components default to `0`, owner to `None`. -/
structure ComputeResource where
  cpu : Int := 0
  gpu : Int := 0
  mem : Int := 0
  owner : Option String := none
  deriving DecidableEq, Repr

/-- `ComputeResource.add` (lines 728-732): componentwise sum, owner is
`self.owner or other.owner`. -/
def ComputeResource.add (a b : ComputeResource) : ComputeResource :=
  { cpu := a.cpu + b.cpu
    gpu := a.gpu + b.gpu
    mem := a.mem + b.mem
    owner := pyOr a.owner b.owner }

/-- `ComputeResource.subtract` (lines 734-742): saturating subtraction that
returns both the remaining part `max 0 (a - b)` and the unmet part
`max 0 (b - a)`, each with owner `self.owner or other.owner`. -/
def ComputeResource.subtract (a b : ComputeResource) : ComputeResource × ComputeResource :=
  ({ cpu := max 0 (a.cpu - b.cpu)
     gpu := max 0 (a.gpu - b.gpu)
     mem := max 0 (a.mem - b.mem)
     owner := pyOr a.owner b.owner },
   { cpu := max 0 (b.cpu - a.cpu)
     gpu := max 0 (b.gpu - a.gpu)
     mem := max 0 (b.mem - a.mem)
     owner := pyOr a.owner b.owner })

/-- `ComputeResource.sub` (lines 744-745): the remaining part of `subtract`. -/
def ComputeResource.sub (a b : ComputeResource) : ComputeResource :=
  (a.subtract b).1

/-- `ComputeResource.gt` (lines 756-757): true iff any component is strictly
greater. -/
def ComputeResource.gt (a b : ComputeResource) : Bool :=
  a.cpu > b.cpu || a.gpu > b.gpu || a.mem > b.mem

/-- `ComputeResource.bool` (lines 762-763): Python truthiness, true iff the
component sum is positive. -/
def ComputeResource.bool (a : ComputeResource) : Bool :=
  a.cpu + a.gpu + a.mem > 0

/-- C4: for `ComputeResource` values with nonnegative components, subtraction
is saturating: each component of `a.sub b` equals `max 0 (aᵢ - bᵢ)`, hence
`(a - b) + b ≥ a` holds componentwise, and in each component the remaining
part and the unmet part returned by `a.subtract b` are never both strictly
positive. -/
theorem computeResource_subtract_saturating (a b : ComputeResource)
    (ha : 0 ≤ a.cpu ∧ 0 ≤ a.gpu ∧ 0 ≤ a.mem)
    (hb : 0 ≤ b.cpu ∧ 0 ≤ b.gpu ∧ 0 ≤ b.mem) :
    ((a.sub b).cpu = max 0 (a.cpu - b.cpu)
      ∧ (a.sub b).gpu = max 0 (a.gpu - b.gpu)
      ∧ (a.sub b).mem = max 0 (a.mem - b.mem))
    ∧ (a.cpu ≤ ((a.sub b).add b).cpu
      ∧ a.gpu ≤ ((a.sub b).add b).gpu
      ∧ a.mem ≤ ((a.sub b).add b).mem)
    ∧ (¬((a.subtract b).1.cpu > 0 ∧ (a.subtract b).2.cpu > 0)
      ∧ ¬((a.subtract b).1.gpu > 0 ∧ (a.subtract b).2.gpu > 0)
      ∧ ¬((a.subtract b).1.mem > 0 ∧ (a.subtract b).2.mem > 0)) := by
  obtain ⟨ha1, ha2, ha3⟩ := ha
  obtain ⟨hb1, hb2, hb3⟩ := hb
  refine ⟨⟨rfl, rfl, rfl⟩, ⟨?_, ?_, ?_⟩, ?_, ?_, ?_⟩ <;>
    simp [ComputeResource.sub, ComputeResource.subtract, ComputeResource.add] <;>
    omega

/-- Witness for C4 at concrete resources `(4, 1, 0)` and `(2, 3, 0)`. -/
theorem computeResource_subtract_saturating_witness :
    (({ cpu := 4, gpu := 1 } : ComputeResource).sub { cpu := 2, gpu := 3 }).cpu
        = max 0 ((4 : Int) - 2)
      ∧ ¬((({ cpu := 4, gpu := 1 } : ComputeResource).subtract { cpu := 2, gpu := 3 }).1.gpu > 0
        ∧ (({ cpu := 4, gpu := 1 } : ComputeResource).subtract { cpu := 2, gpu := 3 }).2.gpu > 0) := by
  have h := computeResource_subtract_saturating
    { cpu := 4, gpu := 1 } { cpu := 2, gpu := 3 }
    (by refine ⟨?_, ?_, ?_⟩ <;> decide) (by refine ⟨?_, ?_, ?_⟩ <;> decide)
  exact ⟨h.1.1, h.2.2.2.1⟩

/-- Modifier table of `GridEngine._parse_mem` (lines 485-488): lowercase
suffixes are decimal powers, uppercase suffixes are binary powers. -/
def parse_mem_modifier (c : Char) : Option Int :=
  if c = 'k' then some 1000
  else if c = 'm' then some (1000 ^ 2)
  else if c = 'g' then some (1000 ^ 3)
  else if c = 'K' then some 1024
  else if c = 'M' then some (1024 ^ 2)
  else if c = 'G' then some (1024 ^ 3)
  else none

/-- Exact value of Python 3 `int(math.ceil(a / b))` for integers with `b > 0`:
the ceiling of the true quotient, computed as `⌊(a + b - 1) / b⌋`. -/
def ceilDivInt (a b : Int) : Int :=
  Int.ediv (a + b - 1) b

/-- Decimal digit list to number, `none` when empty or a non-digit occurs
(models the digit-run core of Python `int(str)`). -/
def parseDigits : List Char → Option Nat
  | [] => none
  | cs => go cs 0
where
  go : List Char → Nat → Option Nat
  | [], acc => some acc
  | c :: rest, acc =>
      if '0' ≤ c ∧ c ≤ '9' then go rest (acc * 10 + (c.toNat - '0'.toNat))
      else none

/-- Python `int(str)`: an optional leading minus sign followed by digits
(`none` models the `ValueError` raise). -/
def pyInt : List Char → Option Int
  | '-' :: rest => (parseDigits rest).map (fun n => -(n : Int))
  | cs => (parseDigits cs).map (fun n => (n : Int))

/-- Body of `GridEngine._parse_mem` over the character list of the request. -/
def parse_mem_chars : List Char → Option Int
  | [] => some 0
  | cs =>
      match parse_mem_modifier (cs.getLastD ' ') with
      | some modifier =>
          (pyInt cs.dropLast).map (fun number => ceilDivInt (number * modifier) (1024 ^ 3))
      | none =>
          (pyInt cs).map (fun number => ceilDivInt (number * 1) (1024 ^ 3))

/-- `GridEngine._parse_mem` (lines 479-497).  The empty request is `0`; a
trailing modifier character scales the numeric prefix; the byte count is
rounded up to whole gibibytes (`math.ceil(size_in_bytes / modifiers['G'])`
under Python 3 true division).  `none` models the `int` parsing failure
(a `ValueError`, caught by the caller in `get_jobs`). -/
def GridEngine._parse_mem (mem_request : String) : Option Int :=
  parse_mem_chars mem_request.data

/-- C6: `_parse_mem` maps suffixes k/m/g to powers of 1000 and K/M/G to powers
of 1024, rounds the byte count up to whole GiB (the GiB value `g` of a byte
count `n` satisfies `n ≤ g * 2^30 < n + 2^30`), and in particular maps
"4G" to 4, "4096M" to 4, "0" to 0 and "1K" to 1. -/
theorem parse_mem_spec :
    (parse_mem_modifier 'k' = some 1000
      ∧ parse_mem_modifier 'm' = some (1000 ^ 2)
      ∧ parse_mem_modifier 'g' = some (1000 ^ 3)
      ∧ parse_mem_modifier 'K' = some 1024
      ∧ parse_mem_modifier 'M' = some (1024 ^ 2)
      ∧ parse_mem_modifier 'G' = some (1024 ^ 3))
    ∧ (∀ n : Int, n ≤ ceilDivInt n (1024 ^ 3) * 1024 ^ 3
        ∧ ceilDivInt n (1024 ^ 3) * 1024 ^ 3 < n + 1024 ^ 3)
    ∧ GridEngine._parse_mem "4G" = some 4
    ∧ GridEngine._parse_mem "4096M" = some 4
    ∧ GridEngine._parse_mem "0" = some 0
    ∧ GridEngine._parse_mem "1K" = some 1 := by
  refine ⟨⟨rfl, rfl, rfl, rfl, rfl, rfl⟩, ?_, by decide, by decide, by decide, by decide⟩
  intro n
  have hpow : (1024 : Int) ^ 3 = 1073741824 := by norm_num
  unfold ceilDivInt
  rw [hpow]
  have h1 : 1073741824 * Int.ediv (n + 1073741824 - 1) 1073741824
      + Int.emod (n + 1073741824 - 1) 1073741824 = n + 1073741824 - 1 :=
    Int.ediv_add_emod _ _
  have h2 : 0 ≤ Int.emod (n + 1073741824 - 1) 1073741824 :=
    Int.emod_nonneg _ (by norm_num)
  have h3 : Int.emod (n + 1073741824 - 1) 1073741824 < 1073741824 :=
    Int.emod_lt_of_pos _ (by norm_num)
  constructor <;> omega

/-- Python `datetime` value with the fields the storage formatter uses. -/
structure PyDatetime where
  year : Nat
  month : Nat
  day : Nat
  hour : Nat
  minute : Nat
  second : Nat
  microsecond : Nat
  deriving DecidableEq, Repr

/-- Zero-padding to two digits, as strftime directives %m %d %H %M %S do. -/
def pad2 (n : Nat) : String :=
  if n < 10 then "0" ++ toString n else toString n

/-- Zero-padding to four digits, as the strftime directive %Y does. -/
def pad4 (n : Nat) : String :=
  if n < 10 then "000" ++ toString n
  else if n < 100 then "00" ++ toString n
  else if n < 1000 then "0" ++ toString n
  else toString n

/-- `last_activity.strftime(FileSystemHostStorage._DATETIME_FORMAT)` with
`_DATETIME_FORMAT = '%m/%d/%Y %H:%M:%S'` (lines 1353 and 1420).  No strftime
directive for microseconds occurs in the format, so they never appear. -/
def FileSystemHostStorage.strftime_storage (t : PyDatetime) : String :=
  pad2 t.month ++ "/" ++ pad2 t.day ++ "/" ++ pad4 t.year ++ " "
    ++ pad2 t.hour ++ ":" ++ pad2 t.minute ++ ":" ++ pad2 t.second

/-- One line of `FileSystemHostStorage._update_storage_file` (lines 1417-1423):
`_VALUE_BREAKER.join([host, formatted_activity])` with `_VALUE_BREAKER = '|'`. -/
def FileSystemHostStorage.storage_line (host : String) (last_activity : PyDatetime) : String :=
  host ++ "|" ++ FileSystemHostStorage.strftime_storage last_activity

/-- Content written by `FileSystemHostStorage._update_storage_file`: the
per-host lines joined by `'\n'` (line 1422). -/
def FileSystemHostStorage.storage_content (hosts : List (String × PyDatetime)) : String :=
  String.intercalate "\n" (hosts.map (fun p => FileSystemHostStorage.storage_line p.1 p.2))

/-- C9 counterexample: the persisted line for host "worker-123" with last
activity 2024-01-02 03:04:05.123456 is "worker-123|01/02/2024 03:04:05"
(strftime format %m/%d/%Y %H:%M:%S), not the claimed
"worker-123|2024-01-02 03:04:05.123456" (ISO date plus microseconds). -/
theorem storage_line_format_cex :
    FileSystemHostStorage.storage_line "worker-123" ⟨2024, 1, 2, 3, 4, 5, 123456⟩
        = "worker-123|01/02/2024 03:04:05"
      ∧ FileSystemHostStorage.storage_line "worker-123" ⟨2024, 1, 2, 3, 4, 5, 123456⟩
        ≠ "worker-123|2024-01-02 03:04:05.123456" := by
  exact ⟨by decide, by decide⟩

/-- C9 amended: `FileSystemHostStorage` persists one line per stored host in
the format host|MM/DD/YYYY HH:MM:SS (strftime %m/%d/%Y %H:%M:%S), with the
value breaker `'|'` separating the hostname from the formatted last-activity
timestamp, lines joined by newlines; microseconds are never written. -/
theorem storage_line_format :
    (∀ h t, FileSystemHostStorage.storage_content [(h, t)]
        = h ++ "|" ++ FileSystemHostStorage.strftime_storage t)
      ∧ (∀ h1 t1 h2 t2, FileSystemHostStorage.storage_content [(h1, t1), (h2, t2)]
        = FileSystemHostStorage.storage_line h1 t1 ++ "\n"
          ++ FileSystemHostStorage.storage_line h2 t2)
      ∧ (∀ (t : PyDatetime) (micro micro2 : Nat), FileSystemHostStorage.strftime_storage
          { t with microsecond := micro }
        = FileSystemHostStorage.strftime_storage { t with microsecond := micro2 })
      ∧ FileSystemHostStorage.strftime_storage ⟨2024, 1, 2, 3, 4, 5, 123456⟩
        = "01/02/2024 03:04:05" := by
  refine ⟨fun h t => ?_, fun h1 t1 h2 t2 => ?_, fun t micro micro2 => rfl, by decide⟩
  · simp [FileSystemHostStorage.storage_content, FileSystemHostStorage.storage_line,
      String.intercalate, String.intercalate.go]
  · simp [FileSystemHostStorage.storage_content, FileSystemHostStorage.storage_line,
      String.intercalate, String.intercalate.go]

/-- `Instance` (lines 827-851): an execution instance type. -/
structure Instance where
  name : String
  price_type : String
  cpu : Int
  gpu : Int
  mem : Int
  deriving DecidableEq, Repr

/-- `GridEngineWorkerRecord` (lines 1941-1949).  `started` and `stopped` come
from the run start/end dates and may be absent. -/
structure GridEngineWorkerRecord where
  id : Int
  name : Option String
  instance_type : Option String
  started : Option Int
  stopped : Option Int
  has_insufficient_instance_capacity : Bool
  deriving DecidableEq, Repr

/-- Loop state of `AvailableInstanceProvider._is_available` (lines 2054-2063):
the `unavailability` variable holds the `stopped` time of the LAST record for
the instance type that has insufficient instance capacity; a record whose
`stopped` is absent resets it, and both the never-assigned state and the
assigned-`None` state behave identically afterwards, so they are merged. -/
def AvailableInstanceProvider.unavailability
    (records : List GridEngineWorkerRecord) (instance_type : String) : Option Int :=
  records.foldl
    (fun acc record =>
      if record.instance_type = some instance_type
          ∧ record.has_insufficient_instance_capacity then record.stopped else acc)
    none

/-- `AvailableInstanceProvider._is_available` (lines 2054-2063): the type is
available iff no unavailability time was recorded or it lies strictly before
`now - unavailability_delay`. -/
def AvailableInstanceProvider._is_available
    (records : List GridEngineWorkerRecord) (now unavailability_delay : Int)
    (instance_type : String) : Bool :=
  let unavailability_expiration := now - unavailability_delay
  match AvailableInstanceProvider.unavailability records instance_type with
  | none => true
  | some stopped => stopped < unavailability_expiration

/-- `AvailableInstanceProvider.provide` (lines 2039-2052): keep the available
instances of the inner provider; if none is available, fall back to the full
inner list. -/
def AvailableInstanceProvider.provide
    (inner : List Instance) (records : List GridEngineWorkerRecord)
    (now unavailability_delay : Int) : List Instance :=
  let available_instances := inner.filter
    (fun inst => AvailableInstanceProvider._is_available records now unavailability_delay inst.name)
  if available_instances.isEmpty then inner else available_instances

/-- Record list for the C7 counterexample: a recent insufficient-capacity
record for type "X" followed by an old insufficient-capacity record for "X". -/
def c7_records : List GridEngineWorkerRecord :=
  [⟨1, some "w1", some "X", some 9000, some 9400, true⟩,
   ⟨2, some "w2", some "X", some 6000, some 6400, true⟩]

/-- Instance "X" for C7. -/
def c7_instanceX : Instance := ⟨"X", "on_demand", 2, 0, 4⟩

/-- Instance "Y" for C7. -/
def c7_instanceY : Instance := ⟨"Y", "on_demand", 4, 0, 8⟩

/-- C7 counterexample: with `now = 10000` and `unavailability_delay = 1800`,
the first record for type "X" has insufficient capacity and stopped at
`9400 ≥ now - delay = 8200`, yet `provide` keeps "X" (and the result is not
the fallback: "Y" alone is available-filterable), because `_is_available`
only looks at the LAST matching record, which stopped long ago at 6400.
The claim, which demands that every instance type with a recent
insufficient-capacity record be dropped, is therefore false here. -/
theorem availableInstanceProvider_cex :
    (c7_records.get ⟨0, by decide⟩).has_insufficient_instance_capacity = true
      ∧ (c7_records.get ⟨0, by decide⟩).instance_type = some c7_instanceX.name
      ∧ (c7_records.get ⟨0, by decide⟩).stopped = some 9400
      ∧ (10000 : Int) - 1800 ≤ 9400
      ∧ AvailableInstanceProvider.provide [c7_instanceX, c7_instanceY] c7_records 10000 1800
        = [c7_instanceX, c7_instanceY] := by
  exact ⟨rfl, rfl, rfl, by decide, by decide⟩

/-- C7 amended: `provide` drops every instance type whose LAST
insufficient-capacity WorkerRecord stopped within the last
`unavailability_delay` seconds (`stopped ≥ now - delay`), and when this
filtering leaves no instance it returns the unfiltered inner list; in
particular, with one record for type X with insufficient capacity stopped at
`now - 600` and delay `1800`, X is dropped, and if X is the only allowed
instance the full allowed list is returned. -/
theorem availableInstanceProvider_spec
    (inner : List Instance) (records : List GridEngineWorkerRecord)
    (now delay : Int) (inst : Instance) (t : Int)
    (hlast : AvailableInstanceProvider.unavailability records inst.name = some t)
    (hrecent : now - delay ≤ t) :
    inst ∉ inner.filter
        (fun i => AvailableInstanceProvider._is_available records now delay i.name)
      ∧ ((inner.filter
          (fun i => AvailableInstanceProvider._is_available records now delay i.name)).isEmpty
        → AvailableInstanceProvider.provide inner records now delay = inner)
      ∧ (¬(inner.filter
          (fun i => AvailableInstanceProvider._is_available records now delay i.name)).isEmpty
        → AvailableInstanceProvider.provide inner records now delay
          = inner.filter
            (fun i => AvailableInstanceProvider._is_available records now delay i.name))
      ∧ AvailableInstanceProvider.provide [c7_instanceX]
          [⟨1, some "w1", some "X", some (10000 - 1200), some (10000 - 600), true⟩] 10000 1800
        = [c7_instanceX]
      ∧ AvailableInstanceProvider.provide [c7_instanceX, c7_instanceY]
          [⟨1, some "w1", some "X", some (10000 - 1200), some (10000 - 600), true⟩] 10000 1800
        = [c7_instanceY] := by
  refine ⟨?_, ?_, ?_, by decide, by decide⟩
  · intro hmem
    have h := List.of_mem_filter hmem
    rw [AvailableInstanceProvider._is_available] at h
    simp only [hlast] at h
    simp at h
    omega
  · intro hemp
    rw [AvailableInstanceProvider.provide]
    simp only [hemp, if_true]
  · intro hemp
    rw [AvailableInstanceProvider.provide]
    simp only [Bool.not_eq_true] at hemp
    simp only [hemp]
    simp

/-- Witness for C7 amended at the counterexample instances and records. -/
theorem availableInstanceProvider_spec_witness :
    c7_instanceX ∉ [c7_instanceX, c7_instanceY].filter
        (fun i => AvailableInstanceProvider._is_available
          [⟨1, some "w1", some "X", some 8800, some 9400, true⟩] 10000 1800 i.name) := by
  exact (availableInstanceProvider_spec [c7_instanceX, c7_instanceY]
    [⟨1, some "w1", some "X", some 8800, some 9400, true⟩] 10000 1800 c7_instanceX 9400
    (by decide) (by decide)).1

/-- `GridEngineJobState` (lines 304-325) restricted to the named states. -/
inductive GridEngineJobState where
  | running
  | pending
  | suspended
  | errored
  | deleted
  | unknown
  deriving DecidableEq, Repr

/-- `AllocationRule` (lines 2164-2192): the three allowed values. -/
inductive AllocationRule where
  | pe_slots
  | fill_up
  | round_robin
  deriving DecidableEq, Repr

/-- `AllocationRule.fractional_rules` (lines 2186-2188). -/
def AllocationRule.fractional_rules : List AllocationRule :=
  [.round_robin, .fill_up]

/-- `GridEngineJob` (lines 328-344).  `root_id` is the text of
`JB_job_number`, hence a string; Python sorts such keys lexicographically by
code point. -/
structure GridEngineJob where
  id : String
  root_id : String
  name : String
  user : String
  state : GridEngineJobState
  datetime : Int
  hosts : List String
  cpu : Int
  gpu : Int
  mem : Int
  pe : String
  deriving DecidableEq, Repr

/-- Lexicographic code-point comparison of character lists: the order Python
uses on the string keys of `sorted`. -/
def charListLe : List Char → List Char → Bool
  | [], _ => true
  | _ :: _, [] => false
  | a :: as, b :: bs =>
      if a < b then true
      else if b < a then false
      else charListLe as bs

/-- Job comparison key of `GridEngineDemandSelector.select` (line 658):
`sorted(jobs, key=lambda job: job.root_id)`. -/
def root_id_le (a b : GridEngineJob) : Bool :=
  charListLe a.root_id.data b.root_id.data

theorem charListLe_total : ∀ a b : List Char, charListLe a b = true ∨ charListLe b a = true := by
  intro a
  induction a with
  | nil => intro b; left; rfl
  | cons x xs ih =>
      intro b
      cases b with
      | nil => right; rfl
      | cons y ys =>
          by_cases hxy : x < y
          · left; simp [charListLe, hxy]
          · by_cases hyx : y < x
            · right; simp [charListLe, hyx]
            · have := ih ys
              cases this with
              | inl h => left; simp [charListLe, hxy, hyx, h]
              | inr h => right; simp [charListLe, hxy, hyx, h]

theorem charListLe_trans :
    ∀ a b c : List Char, charListLe a b = true → charListLe b c = true → charListLe a c = true := by
  intro a
  induction a with
  | nil => intro b c _ _; rfl
  | cons x xs ih =>
      intro b c h1 h2
      cases b with
      | nil => simp [charListLe] at h1
      | cons y ys =>
          cases c with
          | nil => simp [charListLe] at h2
          | cons z zs =>
              by_cases hxy : x < y
              · by_cases hyz : y < z
                · simp [charListLe, lt_trans hxy hyz]
                · by_cases hzy : z < y
                  · simp [charListLe, hyz, hzy] at h2
                  · have hyeqz : y = z := le_antisymm (not_lt.mp hzy) (not_lt.mp hyz)
                    subst hyeqz
                    simp [charListLe, hxy]
              · by_cases hyx : y < x
                · simp [charListLe, hxy, hyx] at h1
                · have hxeqy : x = y := le_antisymm (not_lt.mp hyx) (not_lt.mp hxy)
                  subst hxeqy
                  simp only [charListLe, if_neg (lt_irrefl x)] at h1
                  by_cases hxz : x < z
                  · simp [charListLe, hxz]
                  · by_cases hzx : z < x
                    · simp [charListLe, hxz, hzx] at h2
                    · have hxeqz : x = z := le_antisymm (not_lt.mp hzx) (not_lt.mp hxz)
                      subst hxeqz
                      simp only [charListLe, if_neg (lt_irrefl x)] at h2
                      simp [charListLe, ih ys zs h1 h2]

instance : IsTotal GridEngineJob (fun a b => root_id_le a b = true) :=
  ⟨fun a b => charListLe_total a.root_id.data b.root_id.data⟩

instance : IsTrans GridEngineJob (fun a b => root_id_le a b = true) :=
  ⟨fun a b c => charListLe_trans a.root_id.data b.root_id.data c.root_id.data⟩

/-- `sorted(jobs, key=lambda job: job.root_id)` (line 658): a stable sort by
the root id key; Mathlib insertion sort is the stable sort for this total
preorder, hence produces the same list as Python Timsort. -/
def sortJobs (jobs : List GridEngineJob) : List GridEngineJob :=
  List.insertionSort (fun a b => root_id_le a b = true) jobs

/-- Tag distinguishing `IntegralDemand` from `FractionalDemand` (the Python
subclasses of `ComputeResource`, lines 782-797). -/
inductive DemandKind where
  | integral
  | fractional
  deriving DecidableEq, Repr

/-- A demand value: a `ComputeResource` carried by one of the two demand
subclasses. -/
structure Demand where
  kind : DemandKind
  cpu : Int := 0
  gpu : Int := 0
  mem : Int := 0
  owner : Option String := none
  deriving DecidableEq, Repr

/-- `ComputeResource.subtract` with `self` a demand and `other` a supply
(used at line 663): the first result keeps the demand subclass, the second
is a `ResourceSupply`. -/
def Demand.subtractSupply (d : Demand) (s : ComputeResource) : Demand × ComputeResource :=
  ({ kind := d.kind
     cpu := max 0 (d.cpu - s.cpu)
     gpu := max 0 (d.gpu - s.gpu)
     mem := max 0 (d.mem - s.mem)
     owner := pyOr d.owner s.owner },
   { cpu := max 0 (s.cpu - d.cpu)
     gpu := max 0 (s.gpu - d.gpu)
     mem := max 0 (s.mem - d.mem)
     owner := pyOr d.owner s.owner })

/-- `ComputeResource.add` on demand values (used at line 665): the result
keeps the subclass of `self`. -/
def Demand.add (a b : Demand) : Demand :=
  { kind := a.kind
    cpu := a.cpu + b.cpu
    gpu := a.gpu + b.gpu
    mem := a.mem + b.mem
    owner := pyOr a.owner b.owner }

/-- `ComputeResource.bool` on demand values: Python truthiness. -/
def Demand.bool (d : Demand) : Bool :=
  d.cpu + d.gpu + d.mem > 0

/-- Loop body of `GridEngineDemandSelector.select` (lines 659-668) for one
job, given the allocation rule of its parallel environment and the remaining
cluster supply; returns the emitted demand and the updated remaining supply. -/
def demand_step (rule : AllocationRule) (job : GridEngineJob)
    (remaining_supply : ComputeResource) : Demand × ComputeResource :=
  if rule ∈ AllocationRule.fractional_rules then
    let d0 : Demand := { kind := .fractional, cpu := job.cpu, owner := some job.user }
    let p := d0.subtractSupply remaining_supply
    let d1 := if p.1.bool then p.1
      else p.1.add { kind := .fractional, cpu := 1 }
    (d1, p.2)
  else
    ({ kind := .integral, cpu := job.cpu, owner := some job.user }, remaining_supply)

/-- The demand list yielded by the loop of `GridEngineDemandSelector.select`
over an already sorted job list, threading the remaining supply. -/
def demand_go (pe_rule : String → AllocationRule) :
    ComputeResource → List GridEngineJob → List Demand
  | _, [] => []
  | supply, job :: rest =>
      let p := demand_step (pe_rule job.pe) job supply
      p.1 :: demand_go pe_rule p.2 rest

/-- Ghost trace of the same loop, recording for every job the remaining
supply seen just before it and the demand emitted for it. -/
def demand_trace (pe_rule : String → AllocationRule) :
    ComputeResource → List GridEngineJob → List (GridEngineJob × ComputeResource × Demand)
  | _, [] => []
  | supply, job :: rest =>
      let p := demand_step (pe_rule job.pe) job supply
      (job, supply, p.1) :: demand_trace pe_rule p.2 rest

/-- `GridEngineDemandSelector.select` (lines 655-668): reduce the host
supplies to the total remaining supply, sort jobs by root id, and emit one
demand per job.  The per-pe allocation-rule memoisation of the source is the
deterministic function `pe_rule`. -/
def GridEngineDemandSelector.select (pe_rule : String → AllocationRule)
    (host_supplies : List ComputeResource) (jobs : List GridEngineJob) : List Demand :=
  demand_go pe_rule (host_supplies.foldl ComputeResource.add {}) (sortJobs jobs)

theorem demand_trace_map_demand (pe_rule : String → AllocationRule) :
    ∀ (s : ComputeResource) (js : List GridEngineJob),
      (demand_trace pe_rule s js).map (fun e => e.2.2) = demand_go pe_rule s js := by
  intro s js
  induction js generalizing s with
  | nil => rfl
  | cons j rest ih => simp [demand_trace, demand_go, ih]

theorem demand_trace_map_job (pe_rule : String → AllocationRule) :
    ∀ (s : ComputeResource) (js : List GridEngineJob),
      (demand_trace pe_rule s js).map (fun e => e.1) = js := by
  intro s js
  induction js generalizing s with
  | nil => rfl
  | cons j rest ih => simp [demand_trace, ih]

theorem demand_go_length (pe_rule : String → AllocationRule) :
    ∀ (s : ComputeResource) (js : List GridEngineJob),
      (demand_go pe_rule s js).length = js.length := by
  intro s js
  induction js generalizing s with
  | nil => rfl
  | cons j rest ih => simp [demand_go, ih]

theorem demand_trace_integral (pe_rule : String → AllocationRule) :
    ∀ (s : ComputeResource) (js : List GridEngineJob)
      (j : GridEngineJob) (sb : ComputeResource) (d : Demand),
      (j, sb, d) ∈ demand_trace pe_rule s js →
      pe_rule j.pe ∉ AllocationRule.fractional_rules →
      d = { kind := .integral, cpu := j.cpu, owner := some j.user } := by
  intro s js
  induction js generalizing s with
  | nil => intro j sb d h _; simp [demand_trace] at h
  | cons job rest ih =>
      intro j sb d h hrule
      simp only [demand_trace, List.mem_cons] at h
      cases h with
      | inl h =>
          have h1 : j = job := congrArg Prod.fst h
          have h3 : d = (demand_step (pe_rule job.pe) job s).1 :=
            congrArg (fun p => p.2.2) h
          subst h1
          subst h3
          simp [demand_step, if_neg hrule]
      | inr h => exact ih _ j sb d h hrule

theorem demand_trace_fractional_covered (pe_rule : String → AllocationRule) :
    ∀ (s : ComputeResource) (js : List GridEngineJob)
      (j : GridEngineJob) (sb : ComputeResource) (d : Demand),
      (j, sb, d) ∈ demand_trace pe_rule s js →
      pe_rule j.pe ∈ AllocationRule.fractional_rules →
      (({ kind := .fractional, cpu := j.cpu, owner := some j.user } : Demand).subtractSupply
        sb).1.bool = false →
      d.cpu = 1 := by
  intro s js
  induction js generalizing s with
  | nil => intro j sb d h _ _; simp [demand_trace] at h
  | cons job rest ih =>
      intro j sb d h hrule hcov
      simp only [demand_trace, List.mem_cons] at h
      cases h with
      | inl h =>
          have h1 : j = job := congrArg Prod.fst h
          have hsb : sb = s := congrArg (fun p => p.2.1) h
          have h3 : d = (demand_step (pe_rule job.pe) job s).1 :=
            congrArg (fun p => p.2.2) h
          subst h1
          subst hsb
          subst h3
          rw [demand_step, if_pos hrule]
          simp only
          rw [if_neg (by rw [hcov]; exact Bool.false_ne_true)]
          simp [Demand.add]
          have : (({ kind := .fractional, cpu := j.cpu, owner := some j.user } :
              Demand).subtractSupply sb).1.cpu = 0 := by
            simp only [Demand.bool, Demand.subtractSupply] at hcov ⊢
            simp only [decide_eq_false_iff_not, not_lt] at hcov
            omega
          omega
      | inr h => exact ih _ j sb d h hrule hcov

/-- Job used in the C2 counterexample: integral pe, cpu 2, gpu 1, mem 4. -/
def c2_job : GridEngineJob :=
  { id := "1", root_id := "1", name := "j1", user := "alice", state := .pending,
    datetime := 0, hosts := [], cpu := 2, gpu := 1, mem := 4, pe := "local" }

/-- C2 counterexample: for a job with an integral allocation rule requiring
cpu 2, gpu 1 and mem 4, the emitted demand is
`IntegralDemand(cpu=job.cpu, owner=job.user)` with gpu 0 and mem 0 (line 667
passes only `cpu` and `owner`), so it does not equal the requirement
`(cpu, gpu, mem)` of the job as the claim states. -/
theorem demandSelector_select_cex :
    GridEngineDemandSelector.select (fun _ => AllocationRule.pe_slots) [] [c2_job]
        = [{ kind := .integral, cpu := 2, owner := some "alice" }]
      ∧ ¬(∀ d ∈ GridEngineDemandSelector.select (fun _ => AllocationRule.pe_slots) [] [c2_job],
            d.cpu = c2_job.cpu ∧ d.gpu = c2_job.gpu ∧ d.mem = c2_job.mem) := by
  exact ⟨by decide, by decide⟩

/-- C2 amended: `GridEngineDemandSelector.select` yields one demand per job,
for jobs processed in ascending root-id order (stable sort by root id); for
every job whose parallel environment has an integral allocation rule the
emitted demand is `IntegralDemand(cpu=job.cpu, owner=job.user)` — carrying
the cpu of the job, with gpu and mem 0 rather than the gpu/mem of the job —
and for every fractional-rule job fully covered by the remaining cluster free
supply at its turn the emitted demand has cpu 1. -/
theorem demandSelector_select_spec (pe_rule : String → AllocationRule)
    (host_supplies : List ComputeResource) (jobs : List GridEngineJob) :
    GridEngineDemandSelector.select pe_rule host_supplies jobs
        = (demand_trace pe_rule (host_supplies.foldl ComputeResource.add {})
            (sortJobs jobs)).map (fun e => e.2.2)
      ∧ (demand_trace pe_rule (host_supplies.foldl ComputeResource.add {})
            (sortJobs jobs)).map (fun e => e.1) = sortJobs jobs
      ∧ List.Sorted (fun a b => root_id_le a b = true) (sortJobs jobs)
      ∧ (GridEngineDemandSelector.select pe_rule host_supplies jobs).length = jobs.length
      ∧ (∀ (j : GridEngineJob) (sb : ComputeResource) (d : Demand),
          (j, sb, d) ∈ demand_trace pe_rule (host_supplies.foldl ComputeResource.add {})
            (sortJobs jobs) →
          pe_rule j.pe ∉ AllocationRule.fractional_rules →
          d = { kind := .integral, cpu := j.cpu, owner := some j.user })
      ∧ (∀ (j : GridEngineJob) (sb : ComputeResource) (d : Demand),
          (j, sb, d) ∈ demand_trace pe_rule (host_supplies.foldl ComputeResource.add {})
            (sortJobs jobs) →
          pe_rule j.pe ∈ AllocationRule.fractional_rules →
          (({ kind := .fractional, cpu := j.cpu, owner := some j.user } :
            Demand).subtractSupply sb).1.bool = false →
          d.cpu = 1) := by
  refine ⟨(demand_trace_map_demand pe_rule _ _).symm,
    demand_trace_map_job pe_rule _ _,
    List.sorted_insertionSort _ jobs,
    ?_,
    fun j sb d h hr => demand_trace_integral pe_rule _ _ j sb d h hr,
    fun j sb d h hr hc => demand_trace_fractional_covered pe_rule _ _ j sb d h hr hc⟩
  rw [GridEngineDemandSelector.select, demand_go_length, sortJobs,
    List.length_insertionSort]

/-- Jobs for the C2 witness: a fractional job with root id "2" and an
integral job with root id "1". -/
def c2w_jobs : List GridEngineJob :=
  [{ id := "2", root_id := "2", name := "a", user := "alice", state := .pending,
     datetime := 0, hosts := [], cpu := 3, gpu := 0, mem := 0, pe := "mpi" },
   { id := "1.1", root_id := "1", name := "b", user := "bob", state := .pending,
     datetime := 0, hosts := [], cpu := 2, gpu := 0, mem := 0, pe := "local" }]

/-- Allocation rules for the C2 witness: pe "mpi" is fractional. -/
def c2w_pe_rule : String → AllocationRule :=
  fun pe => if pe = "mpi" then .fill_up else .pe_slots

/-- Host supplies for the C2 witness: a single host with 10 free slots. -/
def c2w_supplies : List ComputeResource :=
  [{ cpu := 10 }]

/-- Witness for C2 amended: at the two concrete jobs the selector emits two
demands; the integral job ("1", bob, cpu 2) gets the integral demand of its
cpu, and the fractional job ("2", alice, cpu 3), fully covered by the
10-slot supply, gets a demand of cpu 1. -/
theorem demandSelector_select_spec_witness :
    (GridEngineDemandSelector.select c2w_pe_rule c2w_supplies c2w_jobs).length = 2
      ∧ ((c2w_jobs.get ⟨1, by decide⟩, ({ cpu := 10, owner := none } : ComputeResource),
          ({ kind := .integral, cpu := 2, owner := some "bob" } : Demand))
          ∈ demand_trace c2w_pe_rule (c2w_supplies.foldl ComputeResource.add {})
            (sortJobs c2w_jobs)
        ∧ ({ kind := .integral, cpu := 2, owner := some "bob" } : Demand)
          = { kind := .integral, cpu := (c2w_jobs.get ⟨1, by decide⟩).cpu,
              owner := some (c2w_jobs.get ⟨1, by decide⟩).user })
      ∧ ((c2w_jobs.get ⟨0, by decide⟩, ({ cpu := 10, owner := none } : ComputeResource),
          ({ kind := .fractional, cpu := 1, owner := some "alice" } : Demand))
          ∈ demand_trace c2w_pe_rule (c2w_supplies.foldl ComputeResource.add {})
            (sortJobs c2w_jobs)
        ∧ ({ kind := .fractional, cpu := 1, owner := some "alice" } : Demand).cpu = 1) := by
  have h := demandSelector_select_spec c2w_pe_rule c2w_supplies c2w_jobs
  refine ⟨?_, ⟨by decide, ?_⟩, ⟨by decide, ?_⟩⟩
  · rw [h.2.2.2.1]; decide
  · exact h.2.2.2.2.1 (c2w_jobs.get ⟨1, by decide⟩)
      { cpu := 10, owner := none }
      { kind := .integral, cpu := 2, owner := some "bob" }
      (by decide) (by decide)
  · exact h.2.2.2.2.2 (c2w_jobs.get ⟨0, by decide⟩)
      { cpu := 10, owner := none }
      { kind := .fractional, cpu := 1, owner := some "alice" }
      (by decide) (by decide) (by decide)

/-- `ResourceSupply.of` (lines 806-808): the supply of an instance. -/
def ResourceSupply.of (i : Instance) : ComputeResource :=
  { cpu := i.cpu, gpu := i.gpu, mem := i.mem }

/-- `InstanceDemand` (lines 811-824): an instance choice with an owner.  The
Python attribute `instance` is called `inst` here because `instance` is a
reserved word in Lean. -/
structure InstanceDemand where
  inst : Instance
  owner : Option String
  deriving DecidableEq, Repr

/-- `ComputeResource.subtract` with `self` a supply and `other` a demand
(used at lines 1919 and 1926): the first result is a supply, the second
keeps the subclass of the demand. -/
def ComputeResource.subtractDemand (s : ComputeResource) (d : Demand) :
    ComputeResource × Demand :=
  ({ cpu := max 0 (s.cpu - d.cpu)
     gpu := max 0 (s.gpu - d.gpu)
     mem := max 0 (s.mem - d.mem)
     owner := pyOr s.owner d.owner },
   { kind := d.kind
     cpu := max 0 (d.cpu - s.cpu)
     gpu := max 0 (d.gpu - s.gpu)
     mem := max 0 (d.mem - s.mem)
     owner := pyOr s.owner d.owner })

/-- `ComputeResource.sub` between two demand values (`demand -
remaining_demand` at line 1929): the remaining part, keeping the subclass of
`self`. -/
def Demand.subDemand (a b : Demand) : Demand :=
  { kind := a.kind
    cpu := max 0 (a.cpu - b.cpu)
    gpu := max 0 (a.gpu - b.gpu)
    mem := max 0 (a.mem - b.mem)
    owner := pyOr a.owner b.owner }

/-- `functools.reduce(operator.add, demands, IntegralDemand())`
(line 1894). -/
def sumDemands (ds : List Demand) : Demand :=
  ds.foldl Demand.add { kind := .integral }

/-- `CpuCapacityInstanceSelector._apply` (lines 1910-1934): walk the demand
list with the remaining supply; when the supply is exhausted the rest of the
demands stay remaining; an integral demand either fits entirely or is left
whole; a fractional demand is split into a fulfilled part and an unmet
remainder.  Returns (remaining demands, fulfilled demands) in source order. -/
def CpuCapacityInstanceSelector._applyGo :
    ComputeResource → List Demand → List Demand × List Demand
  | _, [] => ([], [])
  | remaining_supply, d :: rest =>
      if remaining_supply.bool = false then (d :: rest, [])
      else
        match d.kind with
        | .integral =>
            let p := remaining_supply.subtractDemand d
            if p.2.bool then
              let q := CpuCapacityInstanceSelector._applyGo remaining_supply rest
              (d :: q.1, q.2)
            else
              let q := CpuCapacityInstanceSelector._applyGo p.1 rest
              (q.1, d :: q.2)
        | .fractional =>
            let p := remaining_supply.subtractDemand d
            let fulfilled := d.subDemand p.2
            let q := CpuCapacityInstanceSelector._applyGo p.1 rest
            (if p.2.bool then p.2 :: q.1 else q.1, fulfilled :: q.2)

/-- One `collections.Counter` addition step (line 1937): merge a
`(owner, cpu)` entry into the counts, then keep only positive counts, as
`Counter.__add__` does; an updated key keeps its position, a new key goes to
the end, matching Counter iteration order. -/
def counterAdd (acc : List (Option String × Int)) (entry : Option String × Int) :
    List (Option String × Int) :=
  let merged :=
    if acc.any (fun p => p.1 = entry.1) then
      acc.map (fun p => if p.1 = entry.1 then (p.1, p.2 + entry.2) else p)
    else acc ++ [entry]
  merged.filter (fun p => p.2 > 0)

/-- `CpuCapacityInstanceSelector._resolve_owner` (lines 1936-1938): the owner
with the greatest cpu sum among the fulfilled demands; `most_common` sorts
stably by count descending, so the first-inserted owner wins ties.  `none`
also stands for the empty-counter case. -/
def CpuCapacityInstanceSelector._resolve_owner (demands : List Demand) : Option String :=
  let counts := demands.foldl (fun acc d => counterAdd acc (d.owner, d.cpu)) []
  match counts.foldl
      (fun best p =>
        match best with
        | none => some p
        | some q => if p.2 > q.2 then some p else best)
      none with
  | none => none
  | some q => q.1

/-- Inner loop of `CpuCapacityInstanceSelector.select` (lines 1887-1900):
fold over the candidate instances, applying each instance supply (minus the
reserved supply) to the demands; a later instance replaces the current best
only when its total fulfilled cpu is strictly greater. -/
def CpuCapacityInstanceSelector.pickBest (reserved_supply : ComputeResource)
    (demands : List Demand) (instances : List Instance) :
    Int × Option (Instance × List Demand × List Demand) :=
  instances.foldl
    (fun acc inst =>
      let supply := (ResourceSupply.of inst).sub reserved_supply
      let p := CpuCapacityInstanceSelector._applyGo supply demands
      let current_capacity := (sumDemands p.2).cpu
      if current_capacity > acc.1 then (current_capacity, some (inst, p.1, p.2)) else acc)
    (0, none)

/-- Outer loop of `CpuCapacityInstanceSelector.select` (lines 1883-1908) with
explicit fuel: while demands remain, pick the best instance, emit it with the
resolved owner, and continue on the remainder of the winner; stop when no
instance yields positive capacity.  The Python loop terminates because every
emitted instance fulfills at least one cpu, so the total cpu of the demands
bounds the iterations; the fuel chosen in `select` is that bound. -/
def CpuCapacityInstanceSelector.selectGo (instances : List Instance)
    (reserved_supply : ComputeResource) :
    Nat → List Demand → List InstanceDemand
  | 0, _ => []
  | fuel + 1, remaining_demands =>
      if remaining_demands.isEmpty then []
      else
        match CpuCapacityInstanceSelector.pickBest reserved_supply remaining_demands instances with
        | (_, none) => []
        | (_, some (best_instance, best_remaining, best_fulfilled)) =>
            ⟨best_instance, CpuCapacityInstanceSelector._resolve_owner best_fulfilled⟩
              :: CpuCapacityInstanceSelector.selectGo instances reserved_supply fuel
                  best_remaining

/-- `CpuCapacityInstanceSelector.select` (lines 1883-1908). -/
def CpuCapacityInstanceSelector.select (instances : List Instance)
    (reserved_supply : ComputeResource) (demands : List Demand) : List InstanceDemand :=
  CpuCapacityInstanceSelector.selectGo instances reserved_supply
    (demands.foldl (fun n d => n + d.cpu.toNat) 0 + 1) demands

/-- Candidate instance A of C3. -/
def c3_A : Instance := ⟨"A", "on_demand", 2, 0, 0⟩

/-- Candidate instance B of C3. -/
def c3_B : Instance := ⟨"B", "on_demand", 4, 0, 0⟩

/-- Candidate instance C of C3. -/
def c3_C : Instance := ⟨"C", "on_demand", 8, 0, 0⟩

/-- C3: on one integral demand of cpu 4 with candidates A (cpu 2), B (cpu 4),
C (cpu 8) and zero reserved supply, the selector yields exactly one
`InstanceDemand` and it is for B; B and C both fulfill 4 cpu (A fulfills 0),
and the tie is broken in favour of the first encountered because a later
instance replaces the current best only when its fulfilled cpu is strictly
greater. -/
theorem cpuCapacity_select_scenario :
    (sumDemands (CpuCapacityInstanceSelector._applyGo
        ((ResourceSupply.of c3_A).sub {}) [{ kind := .integral, cpu := 4 }]).2).cpu = 0
      ∧ (sumDemands (CpuCapacityInstanceSelector._applyGo
        ((ResourceSupply.of c3_B).sub {}) [{ kind := .integral, cpu := 4 }]).2).cpu = 4
      ∧ (sumDemands (CpuCapacityInstanceSelector._applyGo
        ((ResourceSupply.of c3_C).sub {}) [{ kind := .integral, cpu := 4 }]).2).cpu = 4
      ∧ CpuCapacityInstanceSelector.select [c3_A, c3_B, c3_C] {}
          [{ kind := .integral, cpu := 4 }]
        = [{ inst := c3_B, owner := none }] := by
  exact ⟨by decide, by decide, by decide, by decide⟩

/-- View of a run object as returned by `api.load_run`, restricted to the
fields `_await_pod_initialization` reads. -/
structure RunView where
  status : Option String
  podIP : Option String
  podId : String
  deriving DecidableEq, Repr

/-- Outcome of the pod poll loop: a pod, a `ScalingError` because the run is
not RUNNING, a `ScalingError` because the attempts are exhausted, or `spin`
when the loop is still running after the given number of steps. -/
inductive AwaitPodResult where
  | pod (ip : String) (name : String)
  | failStatus
  | failTimeout
  | spin
  deriving DecidableEq, Repr

/-- The `while attempts != 0` loop of
`GridEngineScaleUpHandler._await_pod_initialization` (lines 1089-1105),
step-indexed by fuel.  `runs i` is the run object observed by the i-th
`load_run` call; the attempts counter is an exact rational, the value the
Python 3 float arithmetic computes for all magnitudes occurring here
(`timeout / delay` with a decrement of 1 per iteration is exact in binary
floating point until far beyond any realistic fuel). -/
def GridEngineScaleUpHandler._await_pod_loop (runs : Nat → RunView) :
    Nat → ℚ → Nat → AwaitPodResult
  | 0, _, _ => .spin
  | fuel + 1, attempts, i =>
      if attempts ≠ 0 then
        let run := runs i
        if run.status.getD "RUNNING" ≠ "RUNNING" then .failStatus
        else
          match run.podIP with
          | some ip => .pod ip run.podId
          | none => GridEngineScaleUpHandler._await_pod_loop runs fuel (attempts - 1) (i + 1)
      else .failTimeout

/-- `GridEngineScaleUpHandler._await_pod_initialization` (lines 1085-1105):
the attempts counter starts at `polling_timeout / polling_delay` (Python 3
true division) when the delay is nonzero, else at `_POLL_ATTEMPTS = 60`. -/
def GridEngineScaleUpHandler._await_pod_initialization
    (runs : Nat → RunView) (polling_timeout polling_delay : ℚ) (fuel : Nat) : AwaitPodResult :=
  let attempts := if polling_delay ≠ 0 then polling_timeout / polling_delay else 60
  GridEngineScaleUpHandler._await_pod_loop runs fuel attempts 0

/-- A run that stays RUNNING and never publishes a pod IP. -/
def c8_stuckRun : Nat → RunView :=
  fun _ => { status := some "RUNNING", podIP := none, podId := "pod" }

theorem await_pod_loop_spin_of_halfInteger (n0 : Int) :
    ∀ (fuel : Nat) (a : ℚ) (i : Nat), a = 3 / 2 - n0 → n0 ≤ fuel + n0 →
      GridEngineScaleUpHandler._await_pod_loop c8_stuckRun fuel a i = .spin := by
  intro fuel
  induction fuel generalizing n0 with
  | zero => intro a i _ _; rfl
  | succ fuel ih =>
      intro a i ha _
      have hne : a ≠ 0 := by
        intro h0
        rw [h0] at ha
        have h3 : (2 * n0 : ℚ) = 3 := by
          field_simp at ha
          linarith
        have h3z : (2 * n0 : Int) = 3 := by exact_mod_cast h3
        omega
      rw [GridEngineScaleUpHandler._await_pod_loop, if_pos hne]
      have hstep : a - 1 = 3 / 2 - ((n0 + 1 : Int) : ℚ) := by
        rw [ha]
        push_cast
        ring
      simpa [c8_stuckRun] using ih (n0 + 1) (a - 1) (i + 1) hstep (by omega)

/-- C8: the claim says the poll terminates after at most
`polling_timeout / polling_delay` attempts for every positive timeout and
delay; the code computes `attempts = polling_timeout / polling_delay` by
true division and loops `while attempts != 0`, so for `timeout = 15` and
`delay = 10` the counter starts at 1.5, is never equal to 0, and the loop
never exits by exhaustion: with a run that stays RUNNING without a pod IP
the poll runs forever (the sibling `_await_worker_initialization` guards the
same loop with `attempts > 0` instead). -/
theorem await_pod_nonterminating :
    ∀ fuel : Nat,
      GridEngineScaleUpHandler._await_pod_initialization c8_stuckRun 15 10 fuel
        = .spin := by
  intro fuel
  rw [GridEngineScaleUpHandler._await_pod_initialization]
  simp only [if_pos (by norm_num : (10 : ℚ) ≠ 0)]
  have h15 : (15 : ℚ) / 10 = 3 / 2 - ((0 : Int) : ℚ) := by norm_num
  exact await_pod_loop_spin_of_halfInteger 0 fuel _ 0 h15 (by omega)

/-- `ExecutionError` (lines 235-236): a failed subprocess. -/
structure ExecutionError where
  msg : String
  deriving DecidableEq, Repr

/-- `GridEngine.get_jobs` (lines 374-458) at the error boundary: a failing
`qstat` (lines 374-379) yields the empty job list; on success the XML body
is parsed into jobs.  The XML parsing of lines 380-458 is the abstract
`parse` argument: only the error branch is at stake here. -/
def GridEngine.get_jobs (qstat_result : Except ExecutionError String)
    (parse : String → List GridEngineJob) : List GridEngineJob :=
  match qstat_result with
  | .error _ => []
  | .ok output => parse output

/-- `ComputeResource.gt` with `self` a demand and `other` a supply (used at
lines 686 and 700): true iff any component is strictly greater. -/
def Demand.gtResource (d : Demand) (s : ComputeResource) : Bool :=
  d.cpu > s.cpu || d.gpu > s.gpu || d.mem > s.mem

/-- `GridEngineJobValidator.validate` (lines 678-714): partition jobs into
valid and invalid; a fractional-rule job is invalid when its demand exceeds
the cluster max supply, an integral-rule job when it exceeds the single
instance max supply. -/
def GridEngineJobValidator.validate (pe_rule : String → AllocationRule)
    (instance_max_supply cluster_max_supply : ComputeResource)
    (jobs : List GridEngineJob) : List GridEngineJob × List GridEngineJob :=
  jobs.foldl
    (fun acc job =>
      let job_demand : Demand :=
        { kind := .integral, cpu := job.cpu, gpu := job.gpu, mem := job.mem }
      if pe_rule job.pe ∈ AllocationRule.fractional_rules then
        if job_demand.gtResource cluster_max_supply then (acc.1, acc.2 ++ [job])
        else (acc.1 ++ [job], acc.2)
      else
        if job_demand.gtResource instance_max_supply then (acc.1, acc.2 ++ [job])
        else (acc.1 ++ [job], acc.2))
    ([], [])

/-- The additional-host storage content: hostname with last-activity
timestamp (the dict `MemoryHostStorage._storage`, unique keys). -/
abbrev HostStorage := List (String × Int)

/-- `MemoryHostStorage.update_running_jobs_host_activity` (lines 1320-1330):
stamp the given timestamp on every stored host that appears among the hosts
of a running job (hosts not in storage are ignored; when no running job
names a host the update is a no-op, matching the `if active_hosts` guard). -/
def MemoryHostStorage.update_running_jobs_host_activity (storage : HostStorage)
    (running_jobs : List GridEngineJob) (activity_timestamp : Int) : HostStorage :=
  storage.map
    (fun p =>
      if running_jobs.any (fun j => j.hosts.contains p.1) then (p.1, activity_timestamp)
      else p)

/-- `sorted(running_jobs, key=lambda job: job.datetime, reverse=True)[0]`
(line 1619): the first occurrence of the maximal start time (the stable
descending sort keeps earlier elements first among ties). -/
def latestRunningJob (running_jobs : List GridEngineJob) : Option GridEngineJob :=
  running_jobs.foldl
    (fun best j =>
      match best with
      | none => some j
      | some b => if j.datetime > b.datetime then some j else best)
    none

/-- `GridEngineScaleDownOrchestrator.select_hosts_to_scale_down`
(lines 1254-1256): hosts sorted by their current supply descending (largest
first); the sort key of the source is the `ResourceSupply` of
`get_host_supply`, which carries only a cpu count, so the observable order
is by that cpu key, stable and descending. -/
def GridEngineScaleDownOrchestrator.select_hosts_to_scale_down
    (host_supply_cpu : String → Int) (hosts : List String) : List String :=
  List.insertionSort (fun a b => host_supply_cpu b ≤ host_supply_cpu a) hosts

/-- `GridEngineScaleDownOrchestrator.scale_down` (lines 1237-1252): take up
to `batch_size` hosts in supply-descending order, run the scale-down handler
serially, and remove each successfully handled host from the storage.  The
handler outcome (whether the disabled host still has jobs) is the oracle
`down_ok`. -/
def GridEngineScaleDownOrchestrator.scale_down (batch_size : Nat)
    (down_ok : String → Bool) (host_supply_cpu : String → Int)
    (inactive_additional_hosts : List String) (storage : HostStorage) : HostStorage :=
  ((GridEngineScaleDownOrchestrator.select_hosts_to_scale_down host_supply_cpu
      inactive_additional_hosts).take batch_size).foldl
    (fun st host => if down_ok host then st.eraseP (fun p => decide (p.1 = host)) else st)
    storage

/-- `GridEngineScaleUpOrchestrator.scale_up` (lines 906-939): select up to
`min(batch_size, max_batch_size)` instance demands and launch one worker
task per demand.  Each task either adds exactly one host to the storage
(`add_host` at line 1020, which refuses hosts already present) or fails
before the add and contributes nothing; `thread_adds k` is the host and
add-time of task `k`, `none` when the task failed before `add_host`.  The
concurrent tasks are serialised in task order, which the stored host set
does not depend on; the activity refreshes of the waiting loop (lines
922-932) rewrite timestamps of stored hosts only and are omitted. -/
def GridEngineScaleUpOrchestrator.scale_up (instances : List Instance)
    (reserved_supply : ComputeResource) (batch_size : Nat)
    (thread_adds : Nat → Option (String × Int))
    (resource_demands : List Demand) (max_batch_size : Nat)
    (storage : HostStorage) : HostStorage :=
  let instance_demands := (CpuCapacityInstanceSelector.select instances reserved_supply
    resource_demands).take (min batch_size max_batch_size)
  if instance_demands.isEmpty then storage
  else
    (List.range instance_demands.length).foldl
      (fun st k =>
        match thread_adds k with
        | none => st
        | some (host, t) =>
            if st.any (fun p => p.1 = host) then st else st ++ [(host, t)])
      storage

/-- Static configuration of `GridEngineAutoscaler` and its orchestrators. -/
structure AutoscalerConfig where
  max_additional_hosts : Nat
  scale_up_timeout : Int
  scale_down_timeout : Int
  idle_timeout : Int
  up_batch_size : Nat
  down_batch_size : Nat
  instance_max_supply : ComputeResource
  cluster_max_supply : ComputeResource
  reserved_supply : ComputeResource

/-- Environment of one `scale()` call: the wall clock, the outputs of the
external systems consulted during the tick, and the oracles for the
per-worker outcomes. -/
structure TickEnv where
  now : Int
  jobs : List GridEngineJob
  host_supplies : List ComputeResource
  pe_rule : String → AllocationRule
  instances : List Instance
  thread_adds : Nat → Option (String × Int)
  down_ok : String → Bool
  host_supply_cpu : String → Int
  prev_latest : Option GridEngineJob

/-- Ghost observation of the decision a tick took: no action, a scale-up
with the selected demands and the remaining host budget, or a scale-down
with the candidate list handed to the orchestrator. -/
inductive ScaleAction where
  | idle
  | scaleUp (demands : List Demand) (max_batch_size : Nat)
  | scaleDown (candidates : List String)
  deriving DecidableEq, Repr

/-- Activity lookup `host_storage.get_hosts_activity` for one host
(lines 1332-1337); in the autoscaler flow every queried host was loaded from
the same storage, so the absent-host error branch is unreachable and the
default is never read. -/
def lookupActivity (storage : HostStorage) (host : String) : Int :=
  match storage.find? (fun p => decide (p.1 = host)) with
  | some p => p.2
  | none => 0

/-- `GridEngineAutoscaler._filter_valid_idle_hosts` (lines 1702-1708): keep a
candidate only if the scaling period start is at least its last activity
plus the idle timeout. -/
def GridEngineAutoscaler._filter_valid_idle_hosts (idle_timeout : Int)
    (storage : HostStorage) (inactive_host_candidates : List String)
    (scaling_period_start : Int) : List String :=
  inactive_host_candidates.filter
    (fun host => decide (scaling_period_start ≥ lookupActivity storage host + idle_timeout))

/-- `GridEngineAutoscaler._scale_down` (lines 1687-1700): the candidates are
the additional hosts not referenced by any running job; when a scaling
period start is given the idle filter is applied; a non-empty candidate list
goes to the scale-down orchestrator.  Returns the updated storage and the
candidate list. -/
def GridEngineAutoscaler._scale_down (cfg : AutoscalerConfig) (env : TickEnv)
    (running_jobs : List GridEngineJob) (additional_hosts : List String)
    (scaling_period_start : Option Int) (storage : HostStorage) :
    HostStorage × List String :=
  let inactive0 := additional_hosts.filter
    (fun host => !(running_jobs.any (fun j => j.hosts.contains host)))
  let inactive :=
    if inactive0.isEmpty then inactive0
    else
      match scaling_period_start with
      | some t => GridEngineAutoscaler._filter_valid_idle_hosts cfg.idle_timeout storage
          inactive0 t
      | none => inactive0
  let storage1 :=
    if inactive.isEmpty then storage
    else GridEngineScaleDownOrchestrator.scale_down cfg.down_batch_size env.down_ok
      env.host_supply_cpu inactive storage
  (storage1, inactive)

/-- `GridEngineAutoscaler.scale` (lines 1609-1667): one tick of the decision
loop over the additional-host storage.  The static host storage, which never
gains or loses hosts here, is omitted; `prev_latest` carries
`self.latest_running_job` from earlier ticks. -/
def GridEngineAutoscaler.scale (cfg : AutoscalerConfig) (env : TickEnv)
    (storage0 : HostStorage) : HostStorage × ScaleAction :=
  let now := env.now
  let additional_hosts := storage0.map (fun p => p.1)
  let updated_jobs := env.jobs
  let running_jobs := updated_jobs.filter (fun j => decide (j.state = .running))
  let storage1 :=
    if running_jobs.isEmpty then storage0
    else MemoryHostStorage.update_running_jobs_host_activity storage0 running_jobs now
  let latest_running_job :=
    if running_jobs.isEmpty then env.prev_latest else latestRunningJob running_jobs
  if cfg.max_additional_hosts = 0 then (storage1, .idle)
  else
    let pending_jobs := updated_jobs.filter (fun j => decide (j.state = .pending))
    let waiting_jobs := (GridEngineJobValidator.validate env.pe_rule cfg.instance_max_supply
      cfg.cluster_max_supply pending_jobs).1
    if waiting_jobs.isEmpty then
      match latest_running_job with
      | some j =>
          if now ≥ j.datetime + cfg.scale_down_timeout then
            let p := GridEngineAutoscaler._scale_down cfg env running_jobs additional_hosts
              (some now) storage1
            (p.1, .scaleDown p.2)
          else (storage1, .idle)
      | none =>
          let p := GridEngineAutoscaler._scale_down cfg env running_jobs additional_hosts
            (some now) storage1
          (p.1, .scaleDown p.2)
    else
      let expired_jobs := waiting_jobs.filter
        (fun j => decide (now ≥ j.datetime + cfg.scale_up_timeout))
      if expired_jobs.isEmpty then (storage1, .idle)
      else if additional_hosts.length < cfg.max_additional_hosts then
        let resource_demands := GridEngineDemandSelector.select env.pe_rule env.host_supplies
          waiting_jobs
        let remaining_additional_hosts := cfg.max_additional_hosts - additional_hosts.length
        (GridEngineScaleUpOrchestrator.scale_up env.instances cfg.reserved_supply
            cfg.up_batch_size env.thread_adds resource_demands remaining_additional_hosts
            storage1,
         .scaleUp resource_demands remaining_additional_hosts)
      else
        let p := GridEngineAutoscaler._scale_down cfg env running_jobs additional_hosts
          none storage1
        (p.1, .scaleDown p.2)

theorem foldl_length_le {α : Type} (f : HostStorage → α → HostStorage)
    (hf : ∀ st x, (f st x).length ≤ st.length) :
    ∀ (xs : List α) (st : HostStorage), (xs.foldl f st).length ≤ st.length := by
  intro xs
  induction xs with
  | nil => intro st; exact Nat.le_refl _
  | cons x t ih =>
      intro st
      rw [List.foldl_cons]
      exact le_trans (ih _) (hf st x)

theorem foldl_length_le_add {α : Type} (f : HostStorage → α → HostStorage)
    (hf : ∀ st x, (f st x).length ≤ st.length + 1) :
    ∀ (xs : List α) (st : HostStorage),
      (xs.foldl f st).length ≤ st.length + xs.length := by
  intro xs
  induction xs with
  | nil => intro st; simp
  | cons x t ih =>
      intro st
      rw [List.foldl_cons]
      have := ih (f st x)
      have := hf st x
      simp only [List.length_cons]
      omega

theorem scale_down_orchestrator_length_le (batch_size : Nat) (down_ok : String → Bool)
    (host_supply_cpu : String → Int) (hosts : List String) (storage : HostStorage) :
    (GridEngineScaleDownOrchestrator.scale_down batch_size down_ok host_supply_cpu hosts
      storage).length ≤ storage.length := by
  rw [GridEngineScaleDownOrchestrator.scale_down]
  apply foldl_length_le
  intro st host
  split
  · exact List.length_eraseP_le _
  · exact Nat.le_refl _

theorem scale_down_aux_fst_length_le (cfg : AutoscalerConfig) (env : TickEnv)
    (running_jobs : List GridEngineJob) (additional_hosts : List String)
    (scaling_period_start : Option Int) (storage : HostStorage) :
    ((GridEngineAutoscaler._scale_down cfg env running_jobs additional_hosts
      scaling_period_start storage).1).length ≤ storage.length := by
  rw [GridEngineAutoscaler._scale_down.eq_def]
  dsimp only
  repeat' split
  all_goals first
    | exact Nat.le_refl _
    | exact scale_down_orchestrator_length_le ..

theorem scale_up_orchestrator_length_le (instances : List Instance)
    (reserved_supply : ComputeResource) (batch_size : Nat)
    (thread_adds : Nat → Option (String × Int)) (resource_demands : List Demand)
    (max_batch_size : Nat) (storage : HostStorage) :
    (GridEngineScaleUpOrchestrator.scale_up instances reserved_supply batch_size thread_adds
      resource_demands max_batch_size storage).length
      ≤ storage.length + max_batch_size := by
  rw [GridEngineScaleUpOrchestrator.scale_up]
  split
  · omega
  · have hfold := foldl_length_le_add
      (fun st k =>
        match thread_adds k with
        | none => st
        | some (host, t) =>
            if st.any (fun p => p.1 = host) then st else st ++ [(host, t)])
      (by
        intro st k
        cases htk : thread_adds k with
        | none => simp only [htk]; omega
        | some p =>
            obtain ⟨host, t⟩ := p
            simp only [htk]
            split
            · omega
            · simp only [List.length_append, List.length_cons, List.length_nil]
              omega)
      (List.range ((CpuCapacityInstanceSelector.select instances reserved_supply
        resource_demands).take (min batch_size max_batch_size)).length)
      storage
    have hlen : ((CpuCapacityInstanceSelector.select instances reserved_supply
        resource_demands).take (min batch_size max_batch_size)).length
        ≤ min batch_size max_batch_size := by
      rw [List.length_take]
      omega
    rw [List.length_range] at hfold
    have : min batch_size max_batch_size ≤ max_batch_size := Nat.min_le_right _ _
    omega

theorem update_activity_length (storage : HostStorage)
    (running_jobs : List GridEngineJob) (ts : Int) :
    (MemoryHostStorage.update_running_jobs_host_activity storage running_jobs ts).length
      = storage.length := by
  rw [MemoryHostStorage.update_running_jobs_host_activity]
  exact List.length_map ..

/-- C1: a tick of `GridEngineAutoscaler.scale` preserves the bound
`|additional_hosts| ≤ max_additional_hosts`: scale-up is only invoked with
`max_new = max_additional_hosts - |additional_hosts|` when the storage is
below the bound, the scale-up orchestrator launches at most
`min(batch_size, max_new)` workers each adding at most one host, and every
other path only keeps or removes hosts. -/
theorem autoscaler_scale_bounded (cfg : AutoscalerConfig) (env : TickEnv)
    (storage0 : HostStorage) (h : storage0.length ≤ cfg.max_additional_hosts) :
    ((GridEngineAutoscaler.scale cfg env storage0).1).length
      ≤ cfg.max_additional_hosts := by
  have len1 : ∀ (r : List GridEngineJob),
      (if r.isEmpty then storage0
        else MemoryHostStorage.update_running_jobs_host_activity storage0 r env.now).length
        = storage0.length := by
    intro r
    split
    · rfl
    · exact update_activity_length ..
  rw [GridEngineAutoscaler.scale]
  dsimp only
  split
  · rw [len1]; exact h
  · split
    · split
      · split
        · dsimp only
          exact le_trans (scale_down_aux_fst_length_le ..) (by rw [len1]; exact h)
        · rw [len1]; exact h
      · dsimp only
        exact le_trans (scale_down_aux_fst_length_le ..) (by rw [len1]; exact h)
    · split
      · rw [len1]; exact h
      · split
        · dsimp only
          refine le_trans (scale_up_orchestrator_length_le ..) ?_
          rw [len1]
          have hmap : (storage0.map (fun p => p.1)).length = storage0.length :=
            List.length_map ..
          omega
        · dsimp only
          exact le_trans (scale_down_aux_fst_length_le ..) (by rw [len1]; exact h)

/-- Configuration for the C1 witness. -/
def c1w_cfg : AutoscalerConfig :=
  { max_additional_hosts := 2, scale_up_timeout := 30, scale_down_timeout := 60,
    idle_timeout := 120, up_batch_size := 1, down_batch_size := 1,
    instance_max_supply := { cpu := 100, gpu := 100, mem := 100 },
    cluster_max_supply := { cpu := 100, gpu := 100, mem := 100 },
    reserved_supply := {} }

/-- Environment for the C1 witness: an empty queue tick. -/
def c1w_env : TickEnv :=
  { now := 100, jobs := [], host_supplies := [], pe_rule := fun _ => .pe_slots,
    instances := [], thread_adds := fun _ => none, down_ok := fun _ => true,
    host_supply_cpu := fun _ => 0, prev_latest := none }

/-- Storage for the C1 witness: one stored additional host. -/
def c1w_storage : HostStorage := [("pipeline-111", 0)]

/-- Witness for C1 at a concrete one-host storage under the two-host bound. -/
theorem autoscaler_scale_bounded_witness :
    ((GridEngineAutoscaler.scale c1w_cfg c1w_env c1w_storage).1).length
      ≤ c1w_cfg.max_additional_hosts :=
  autoscaler_scale_bounded c1w_cfg c1w_env c1w_storage (by decide)

/-- C5: when the tick sees at least one expired valid waiting job while the
number of additional hosts already equals `max_additional_hosts` (and
autoscaling is enabled), the scale-down path is invoked without the idle
filter: the candidate list handed over is exactly the additional hosts not
referenced by the hosts of any running job, regardless of their activity
timestamps. -/
theorem autoscaler_deadlock_scale_down (cfg : AutoscalerConfig) (env : TickEnv)
    (storage0 : HostStorage)
    (hmax : cfg.max_additional_hosts ≠ 0)
    (hexpired : ((GridEngineJobValidator.validate env.pe_rule cfg.instance_max_supply
        cfg.cluster_max_supply
        (env.jobs.filter (fun j => decide (j.state = .pending)))).1.filter
        (fun j => decide (env.now ≥ j.datetime + cfg.scale_up_timeout))) ≠ [])
    (hfull : storage0.length = cfg.max_additional_hosts) :
    (GridEngineAutoscaler.scale cfg env storage0).2
      = .scaleDown ((storage0.map (fun p => p.1)).filter
          (fun host => !((env.jobs.filter (fun j => decide (j.state = .running))).any
            (fun j => j.hosts.contains host)))) := by
  have hwne : (GridEngineJobValidator.validate env.pe_rule cfg.instance_max_supply
      cfg.cluster_max_supply
      (env.jobs.filter (fun j => decide (j.state = .pending)))).1 ≠ [] := by
    intro hh
    rw [hh] at hexpired
    exact hexpired rfl
  have hw : ¬((GridEngineJobValidator.validate env.pe_rule cfg.instance_max_supply
      cfg.cluster_max_supply
      (env.jobs.filter (fun j => decide (j.state = .pending)))).1.isEmpty = true) := by
    rw [List.isEmpty_iff]
    exact hwne
  have hexp : ¬(((GridEngineJobValidator.validate env.pe_rule cfg.instance_max_supply
      cfg.cluster_max_supply
      (env.jobs.filter (fun j => decide (j.state = .pending)))).1.filter
      (fun j => decide (env.now ≥ j.datetime + cfg.scale_up_timeout))).isEmpty = true) := by
    rw [List.isEmpty_iff]
    exact hexpired
  have hlt : ¬((storage0.map (fun p => p.1)).length < cfg.max_additional_hosts) := by
    rw [List.length_map, hfull]
    omega
  rw [GridEngineAutoscaler.scale]
  dsimp only
  rw [if_neg hmax, if_neg hw, if_neg hexp, if_neg hlt]
  dsimp only
  rw [GridEngineAutoscaler._scale_down.eq_def]
  dsimp only
  rw [ite_self]

/-- Job for the C5 witness: a valid pending job expired for 70 seconds. -/
def c5w_job : GridEngineJob :=
  { id := "7", root_id := "7", name := "w", user := "alice", state := .pending,
    datetime := 0, hosts := [], cpu := 1, gpu := 0, mem := 0, pe := "local" }

/-- Configuration for the C5 witness: the host budget is exhausted at one. -/
def c5w_cfg : AutoscalerConfig :=
  { max_additional_hosts := 1, scale_up_timeout := 30, scale_down_timeout := 60,
    idle_timeout := 120, up_batch_size := 1, down_batch_size := 1,
    instance_max_supply := { cpu := 100, gpu := 100, mem := 100 },
    cluster_max_supply := { cpu := 100, gpu := 100, mem := 100 },
    reserved_supply := {} }

/-- Environment for the C5 witness. -/
def c5w_env : TickEnv :=
  { now := 100, jobs := [c5w_job], host_supplies := [], pe_rule := fun _ => .pe_slots,
    instances := [], thread_adds := fun _ => none, down_ok := fun _ => true,
    host_supply_cpu := fun _ => 0, prev_latest := none }

/-- Storage for the C5 witness: the single allowed additional host, with a
last activity so recent that the idle filter would have retained it. -/
def c5w_storage : HostStorage := [("pipeline-222", 99)]

/-- Witness for C5: with one expired valid waiting job and the single allowed
host present, the tick hands exactly that host to the scale-down path even
though its last activity was one second before the tick. -/
theorem autoscaler_deadlock_scale_down_witness :
    (GridEngineAutoscaler.scale c5w_cfg c5w_env c5w_storage).2
      = .scaleDown ["pipeline-222"] := by
  have h := autoscaler_deadlock_scale_down c5w_cfg c5w_env c5w_storage
    (by decide) (by decide) (by decide)
  rw [h]
  decide

/-- C10: when the `qstat` execution fails, `GridEngine.get_jobs` returns the
empty job list instead of propagating the error, and a tick fed by the
failing call is identical to a tick whose job list is empty (no pending and
no running jobs). -/
theorem get_jobs_failure_behaves_as_no_jobs :
    ∀ (e : ExecutionError) (parse : String → List GridEngineJob)
      (cfg : AutoscalerConfig) (env : TickEnv) (storage : HostStorage),
      GridEngine.get_jobs (Except.error e) parse = []
        ∧ GridEngineAutoscaler.scale cfg
            { env with jobs := GridEngine.get_jobs (Except.error e) parse } storage
          = GridEngineAutoscaler.scale cfg { env with jobs := [] } storage :=
  fun _ _ _ _ _ => ⟨rfl, rfl⟩
